import Mathlib

/-!
Verification development for the collaborative-whiteboard block
(`src/block.tsx`).  The embedding models the rendezvous-and-synchronization
core: identifier generation (roomId, uniquePeerId), the discovery candidate
generator (startRoomDiscovery), the connection registry and its event
handlers (setupConnection, tryConnectToPeer), the inbound message dispatch
(handleIncomingData) and the outbound broadcast (broadcastData).

Modelling conventions:
* JavaScript template-literal number coercion is embedded as `natToString`
  (decimal rendering of a natural number); wall-clock milliseconds are `Nat`.
* The React state maps (`connections`, `users`, `userCursors`) are embedded
  as association lists with JavaScript `Map` semantics (at most one entry
  per key; `set` updates in place or appends; `delete` removes the key).
* Transport events follow standard once-per-event emitter semantics: an
  event invokes exactly the handlers that were subscribed when it fired;
  a handler subscribed afterwards is not invoked for a past event.
* Canvas rendering and network sends are recorded as explicit `Effect`
  values rather than performed.
-/

namespace Whiteboard

/-- Decimal digit character, as produced by JavaScript number-to-string
coercion (used when a number is spliced into a template literal). -/
def digitChar : Nat → Char
  | 0 => '0'
  | 1 => '1'
  | 2 => '2'
  | 3 => '3'
  | 4 => '4'
  | 5 => '5'
  | 6 => '6'
  | 7 => '7'
  | 8 => '8'
  | _ => '9'

/-- Little-endian decimal digits of `n`, with explicit fuel so the
definition is structural (the fuel `n` always suffices). -/
def toDigitsRevFuel : Nat → Nat → List Nat
  | 0, n => [n]
  | fuel + 1, n => if n < 10 then [n] else n % 10 :: toDigitsRevFuel fuel (n / 10)

/-- Little-endian decimal digits of `n`. -/
def toDigitsRev (n : Nat) : List Nat := toDigitsRevFuel n n

/-- Value denoted by a little-endian digit list (left inverse of
`toDigitsRev`). -/
def fromRevDigits : List Nat → Nat
  | [] => 0
  | d :: ds => d + 10 * fromRevDigits ds

/-- Decimal rendering of a natural number: the embedding of JavaScript
template-literal coercion of an integer. -/
def natToString (n : Nat) : String := ⟨(toDigitsRev n).reverse.map digitChar⟩

/-- Character class kept by the regex replace `[^a-zA-Z0-9]` → `''`
(block.tsx line 43). -/
def isAlnumChar (c : Char) : Bool :=
  ('a' ≤ c && c ≤ 'z') || ('A' ≤ c && c ≤ 'Z') || ('0' ≤ c && c ≤ '9')

/-- Room id derivation (block.tsx lines 41-46): strip non-alphanumerics from
the page address, truncate to 30 characters, prefix `wb-`. -/
def roomIdOf (address : String) : String :=
  "wb-" ++ ⟨(address.data.filter isAlnumChar).take 30⟩

/-- Session peer id (block.tsx line 61):
`` `${roomId}-${Date.now()}-${Math.random().toString(36).substr(2, 9)}` ``,
with the wall-clock milliseconds and the random token as parameters. -/
def uniquePeerId (room : String) (nowMs : Nat) (token : String) : String :=
  room ++ "-" ++ natToString nowMs ++ "-" ++ token

/-- Discovery time bucket for lookback step `i` (block.tsx lines 132-133):
`Math.floor((timestamp - i*3000) / 10000) * 10000`. -/
def discoveryBucket (timestamp i : Nat) : Nat :=
  (timestamp - i * 3000) / 10000 * 10000

/-- Candidate peer id dialed by discovery (block.tsx lines 133-137):
`` `${roomId}-${bucket}-${j}` ``. -/
def candidateId (room : String) (timestamp i j : Nat) : String :=
  room ++ "-" ++ natToString (discoveryBucket timestamp i) ++ "-" ++ natToString j

/-- All candidate ids generated by one discovery tick (block.tsx lines
131-142): lookback steps `i = 0..9`, fan-out indices `j = 0..2`. -/
def candidateIds (room : String) (timestamp : Nat) : List String :=
  (List.range 10).flatMap fun i => (List.range 3).map fun j => candidateId room timestamp i j

/-- Participant record carried in a `user-join` message (block.tsx `User`,
lines 19-23, without the optional cursor). -/
structure UserRec where
  id : String
  color : String
deriving DecidableEq

/-- Kind tag of a stroke segment (block.tsx line 15). -/
inductive DrawKind
  | start
  | draw
deriving DecidableEq

/-- Stroke segment payload (block.tsx `DrawingData`, lines 9-17); canvas
coordinates are carried opaquely as integers, no arithmetic on them is
modelled. -/
structure DrawingData where
  x : Int
  y : Int
  prevX : Int
  prevY : Int
  color : String
  kind : DrawKind
  userId : String
deriving DecidableEq

/-- Wire message union (block.tsx lines 182-193 and 224-261). -/
inductive WireMsg
  | userJoin (user : UserRec)
  | drawing (drawingData : DrawingData)
  | cursor (x y : Int)
  | clear
  | requestCanvasState
  | canvasState (imageData : Option (List Nat))
deriving DecidableEq

/-- Observable actions of the handlers: canvas rendering calls and network
sends are recorded rather than performed.  `send lid m` is `conn.send(m)` on
the link numbered `lid`; `broadcast` marks an invocation of `broadcastData`
(the inbound dispatch never produces one). -/
inductive Effect
  | drawOnCanvas (d : DrawingData)
  | clearCanvas
  | send (lid : Nat) (m : WireMsg)
  | broadcast (m : WireMsg)
deriving DecidableEq

/-- Marks broadcast effects (used to state echo suppression). -/
def isBroadcastEff : Effect → Bool
  | .broadcast _ => true
  | _ => false

/-- JavaScript `Map.set`: update the existing entry in place, else append. -/
def mapSet {α : Type} : List (String × α) → String → α → List (String × α)
  | [], k, v => [(k, v)]
  | (k', v') :: rest, k, v =>
    if k' = k then (k, v) :: rest else (k', v') :: mapSet rest k v

/-- JavaScript `Map.get`. -/
def mapGet {α : Type} (m : List (String × α)) (k : String) : Option α :=
  (m.find? fun p => p.1 == k).map Prod.snd

/-- JavaScript `Map.has`. -/
def mapHas {α : Type} (m : List (String × α)) (k : String) : Bool :=
  (mapGet m k).isSome

/-- JavaScript `Map.delete`. -/
def mapDelete {α : Type} (m : List (String × α)) (k : String) : List (String × α) :=
  m.filter fun p => !(p.1 == k)

/-- React state involved in message handling: the session identity and the
three keyed stores (`connections`, `users`, `userCursors`). -/
structure PeerSt where
  myUserId : String
  selectedColor : String
  connections : List (String × Nat)
  users : List (String × UserRec)
  cursors : List (String × (Int × Int))
deriving DecidableEq

/-- Inbound dispatch (block.tsx lines 224-261), translated case by case.
The `connections` map value for a remote id is the link on which replies to
that id are sent. -/
def handleIncomingData (st : PeerSt) (data : WireMsg) (senderId : String) :
    PeerSt × List Effect :=
  match data with
  | .drawing d => (st, [.drawOnCanvas d])
  | .userJoin u =>
    ({ st with users := mapSet st.users senderId u },
      match mapGet st.connections senderId with
      | some lid => [.send lid (.userJoin ⟨st.myUserId, st.selectedColor⟩)]
      | none => [])
  | .cursor x y => ({ st with cursors := mapSet st.cursors senderId (x, y) }, [])
  | .clear => (st, [.clearCanvas])
  | .requestCanvasState =>
    (st,
      match mapGet st.connections senderId with
      | some lid => [.send lid (.canvasState none)]
      | none => [])
  | .canvasState _ => (st, [])

/-- One entry of the `connections` map as seen by `broadcastData`: the
remote id and whether the link's channel is currently open (`conn.open`). -/
structure BConn where
  peer : String
  opn : Bool
deriving DecidableEq

/-- Outbound broadcast (block.tsx lines 263-273): iterate the registry,
skip links that are not open, attempt the rest; a failing send (described
by the environment `fails`) is caught and logged.  Returns the delivered
sends and the logged failures, in iteration order. -/
def broadcastData (conns : List BConn) (fails : String → Bool) (msg : WireMsg) :
    List (String × WireMsg) × List String :=
  match conns with
  | [] => ([], [])
  | c :: rest =>
    let r := broadcastData rest fails msg
    if c.opn then
      if fails c.peer then (r.1, c.peer :: r.2)
      else ((c.peer, msg) :: r.1, r.2)
    else r

/-- Transport-level state of one link object. -/
inductive LinkState
  | pending
  | opn
  | closed
deriving DecidableEq

/-- Which handlers are subscribed on a link.  `outboundOuter`: only the
callback registered by `tryConnectToPeer` (block.tsx line 162), which calls
`setupConnection` when the link opens.  `full`: the open/data/close/error
handlers registered by `setupConnection` (lines 177-221). -/
inductive HandlerPhase
  | outboundOuter
  | full
deriving DecidableEq

/-- One live link object created by `peerInstance.connect` or delivered by
the `connection` event. -/
structure Link where
  lid : Nat
  remote : String
  state : LinkState
  phase : HandlerPhase
deriving DecidableEq

/-- A node: the React stores plus the live link objects. -/
structure NodeSt where
  ps : PeerSt
  links : List Link
  nextLid : Nat
deriving DecidableEq

def findLink (st : NodeSt) (lid : Nat) : Option Link :=
  st.links.find? fun l => l.lid == lid

def updateLink (st : NodeSt) (lid : Nat) (f : Link → Link) : NodeSt :=
  { st with links := st.links.map fun l => if l.lid == lid then f l else l }

/-- Outbound dial (block.tsx lines 153-174): `peerInstance.connect` creates
a new pending link whose only subscribed handler is the outer open
callback; nothing is recorded in the `connections` map at dial time. -/
def tryConnectToPeer (st : NodeSt) (remote : String) : NodeSt :=
  { st with
    links := st.links ++ [⟨st.nextLid, remote, .pending, .outboundOuter⟩],
    nextLid := st.nextLid + 1 }

/-- One discovery tick (block.tsx lines 126-142): dial every candidate that
is not the node's own id and has no entry in the `connections` map. -/
def discoveryTick (st : NodeSt) (room : String) (now : Nat) : NodeSt :=
  (candidateIds room now).foldl
    (fun s pid =>
      if pid ≠ s.ps.myUserId ∧ mapHas s.ps.connections pid = false then
        tryConnectToPeer s pid
      else s)
    st

/-- Transport and timer events delivered to the node's event loop. -/
inductive Event
  | discoveryTickEvt (room : String) (now : Nat)
  | inboundConn (remote : String)
  | transportOpen (lid : Nat)
  | dataEvt (lid : Nat) (m : WireMsg)
  | closeEvt (lid : Nat)

/-- Event-loop step of one node.  Event semantics: an event invokes exactly
the handlers subscribed when it fires.  An inbound link has the
`setupConnection` handlers installed before its open event (lines 94-97),
so the open event records the link and sends `user-join` then
`request-canvas-state` (lines 177-194).  An outbound link only has the
outer callback of `tryConnectToPeer` installed when its open event fires;
that callback then calls `setupConnection`, whose own open handler is
subscribed after the event has already fired and is never invoked.  The
close handler (lines 200-217) deletes the registry, participant and cursor
entries of the link's remote id. -/
def step (st : NodeSt) (e : Event) : NodeSt × List Effect :=
  match e with
  | .discoveryTickEvt room now => (discoveryTick st room now, [])
  | .inboundConn remote =>
    ({ st with
        links := st.links ++ [⟨st.nextLid, remote, .pending, .full⟩],
        nextLid := st.nextLid + 1 }, [])
  | .transportOpen lid =>
    match findLink st lid with
    | none => (st, [])
    | some l =>
      if l.state = .pending then
        match l.phase with
        | .outboundOuter =>
          (updateLink st lid fun l0 => { l0 with state := .opn, phase := .full }, [])
        | .full =>
          let st1 := updateLink st lid fun l0 => { l0 with state := .opn }
          ({ st1 with
              ps := { st1.ps with
                connections := mapSet st1.ps.connections l.remote lid } },
            [.send lid (.userJoin ⟨st.ps.myUserId, st.ps.selectedColor⟩),
             .send lid .requestCanvasState])
      else (st, [])
  | .dataEvt lid m =>
    match findLink st lid with
    | some l =>
      if l.phase = .full ∧ l.state = .opn then
        let r := handleIncomingData st.ps m l.remote
        ({ st with ps := r.1 }, r.2)
      else (st, [])
    | none => (st, [])
  | .closeEvt lid =>
    match findLink st lid with
    | some l =>
      if l.phase = .full then
        let st1 := updateLink st lid fun l0 => { l0 with state := .closed }
        ({ st1 with
            ps := { st1.ps with
              connections := mapDelete st1.ps.connections l.remote,
              users := mapDelete st1.ps.users l.remote,
              cursors := mapDelete st1.ps.cursors l.remote } }, [])
      else (updateLink st lid fun l0 => { l0 with state := .closed }, [])
    | none => (st, [])

/-- Messages sent by a batch of handler effects. -/
def sentMsgs (effs : List Effect) : List WireMsg :=
  effs.filterMap fun e =>
    match e with
    | .send _ m => some m
    | _ => none

/-- Two linked peers and the traffic in flight between them.  `aId` and
`bId` are the ids under which each peer appears in the other's
`connections` map; delivering a queued message invokes the receiver's
`handleIncomingData` and enqueues its reply sends in the other
direction. -/
structure Exchange where
  a : PeerSt
  b : PeerSt
  aId : String
  bId : String
  toB : List WireMsg
  toA : List WireMsg
  delivered : Nat
deriving DecidableEq

/-- Deliver the next in-flight message (preferring the queue towards B);
when both queues are empty the exchange has quiesced. -/
def exchangeStep (ex : Exchange) : Exchange :=
  match ex.toB with
  | m :: rest =>
    let r := handleIncomingData ex.b m ex.aId
    { ex with
      b := r.1
      toB := rest
      toA := ex.toA ++ sentMsgs r.2
      delivered := ex.delivered + 1 }
  | [] =>
    match ex.toA with
    | m :: rest =>
      let r := handleIncomingData ex.a m ex.bId
      { ex with
        a := r.1
        toA := rest
        toB := ex.toB ++ sentMsgs r.2
        delivered := ex.delivered + 1 }
    | [] => ex

/-- Configuration maintained by the user-join exchange: both peers keep each
other registered and exactly one user-join message is in flight. -/
def ExchangeInv (ex : Exchange) : Prop :=
  (∃ la, mapGet ex.a.connections ex.bId = some la) ∧
  (∃ lb, mapGet ex.b.connections ex.aId = some lb) ∧
  ((∃ u, ex.toB = [WireMsg.userJoin u] ∧ ex.toA = []) ∨
    (∃ u, ex.toA = [WireMsg.userJoin u] ∧ ex.toB = []))

/-- Concrete two-peer scenario: peers `wb-x-1-aa` and `wb-x-2-bb`, each
holding a link to the other in its `connections` map, with A's initial
`user-join` in flight to B. -/
def exchangeInit : Exchange :=
  { a := ⟨"wb-x-1-aa", "#FF6B6B", [("wb-x-2-bb", 1)], [], []⟩
    b := ⟨"wb-x-2-bb", "#4ECDC4", [("wb-x-1-aa", 2)], [], []⟩
    aId := "wb-x-1-aa"
    bId := "wb-x-2-bb"
    toB := [.userJoin ⟨"wb-x-1-aa", "#FF6B6B"⟩]
    toA := []
    delivered := 0 }

/-- Fresh node with session id `wb-x-900-me` and empty stores. -/
def nodeInit : NodeSt :=
  { ps := ⟨"wb-x-900-me", "#FF6B6B", [], [], []⟩, links := [], nextLid := 0 }

/-- Node holding one fully set up open link (lid 0) to remote `r`, with a
registry entry, a participant record and a cursor entry for `r`. -/
def nodeC5 : NodeSt :=
  { ps := ⟨"me", "#FF6B6B", [("r", 0)], [("r", ⟨"r", "#45B7D1"⟩)], [("r", (1, 2))]⟩,
    links := [⟨0, "r", .opn, .full⟩],
    nextLid := 1 }

/-- Peer state whose registry maps sender `s` to link 5. -/
def psC9 : PeerSt := ⟨"me", "#FF6B6B", [("s", 5)], [], []⟩

/-! Auxiliary lemmas about decimal rendering. -/

theorem digitChar_ne_dash (d : Nat) : digitChar d ≠ '-' := by
  unfold digitChar; split <;> decide

theorem toDigitsRevFuel_from (fuel : Nat) :
    ∀ n, n ≤ fuel → fromRevDigits (toDigitsRevFuel fuel n) = n := by
  induction fuel with
  | zero =>
    intro n hn
    have h0 : n = 0 := Nat.le_zero.mp hn
    subst h0; rfl
  | succ f ih =>
    intro n hn
    unfold toDigitsRevFuel
    split
    · simp [fromRevDigits]
    · rename_i hge
      have hdiv : n / 10 ≤ f := by
        have : n / 10 < n := Nat.div_lt_self (by omega) (by omega)
        omega
      simp only [fromRevDigits, ih (n / 10) hdiv]
      omega

theorem toDigitsRev_from (n : Nat) : fromRevDigits (toDigitsRev n) = n :=
  toDigitsRevFuel_from n n (Nat.le_refl n)

theorem toDigitsRevFuel_lt_ten (fuel : Nat) :
    ∀ n d, n ≤ fuel → d ∈ toDigitsRevFuel fuel n → d < 10 := by
  induction fuel with
  | zero =>
    intro n d hn hd
    have h0 : n = 0 := Nat.le_zero.mp hn
    subst h0
    simp [toDigitsRevFuel] at hd
    omega
  | succ f ih =>
    intro n d hn hd
    unfold toDigitsRevFuel at hd
    split at hd
    · rename_i hlt
      simp at hd
      omega
    · rename_i hge
      have hdiv : n / 10 ≤ f := by
        have : n / 10 < n := Nat.div_lt_self (by omega) (by omega)
        omega
      rcases List.mem_cons.mp hd with h | h
      · subst h; exact Nat.mod_lt _ (by omega)
      · exact ih (n / 10) d hdiv h

theorem mem_toDigitsRev_lt {n d : Nat} (h : d ∈ toDigitsRev n) : d < 10 :=
  toDigitsRevFuel_lt_ten n n d (Nat.le_refl n) h

theorem digitChar_inj {d₁ d₂ : Nat} (h₁ : d₁ < 10) (h₂ : d₂ < 10)
    (h : digitChar d₁ = digitChar d₂) : d₁ = d₂ := by
  interval_cases d₁ <;> interval_cases d₂ <;> simp_all [digitChar]

theorem map_digitChar_inj :
    ∀ (l₁ l₂ : List Nat), (∀ d ∈ l₁, d < 10) → (∀ d ∈ l₂, d < 10) →
      l₁.map digitChar = l₂.map digitChar → l₁ = l₂ := by
  intro l₁
  induction l₁ with
  | nil =>
    intro l₂ _ _ h
    cases l₂ with
    | nil => rfl
    | cons e es => simp at h
  | cons d ds ih =>
    intro l₂ h₁ h₂ h
    cases l₂ with
    | nil => simp at h
    | cons e es =>
      simp only [List.map_cons, List.cons.injEq] at h
      have hd : d = e :=
        digitChar_inj (h₁ d (List.mem_cons_self d ds)) (h₂ e (List.mem_cons_self e es)) h.1
      have ht : ds = es :=
        ih es (fun x hx => h₁ x (List.mem_cons_of_mem d hx))
          (fun x hx => h₂ x (List.mem_cons_of_mem e hx)) h.2
      rw [hd, ht]

theorem string_data_inj {s₁ s₂ : String} (h : s₁.data = s₂.data) : s₁ = s₂ := by
  cases s₁; cases s₂; exact congrArg String.mk h

theorem natToString_inj {a b : Nat} (h : natToString a = natToString b) : a = b := by
  have hl : (toDigitsRev a).reverse.map digitChar = (toDigitsRev b).reverse.map digitChar :=
    congrArg String.data h
  have hrev : (toDigitsRev a).reverse = (toDigitsRev b).reverse :=
    map_digitChar_inj _ _
      (fun d hd => mem_toDigitsRev_lt (List.mem_reverse.mp hd))
      (fun d hd => mem_toDigitsRev_lt (List.mem_reverse.mp hd)) hl
  have hdig : toDigitsRev a = toDigitsRev b := List.reverse_inj.mp hrev
  calc a = fromRevDigits (toDigitsRev a) := (toDigitsRev_from a).symm
    _ = fromRevDigits (toDigitsRev b) := by rw [hdig]
    _ = b := toDigitsRev_from b

theorem dash_not_in_natToString (n : Nat) : '-' ∉ (natToString n).data := by
  intro h
  have h' : '-' ∈ (toDigitsRev n).reverse.map digitChar := h
  rcases List.mem_map.mp h' with ⟨d, _, hd⟩
  exact digitChar_ne_dash d hd

theorem data_append (a b : String) : (a ++ b).data = a.data ++ b.data := by
  cases a; cases b; rfl

theorem dash_data : ("-" : String).data = ['-'] := rfl

theorem list_append_cancel_left {α : Type} :
    ∀ (as : List α) {bs cs : List α}, as ++ bs = as ++ cs → bs = cs := by
  intro as
  induction as with
  | nil => intro bs cs h; simpa using h
  | cons a as ih =>
    intro bs cs h
    simp only [List.cons_append, List.cons.injEq] at h
    exact ih h.2

theorem dash_split :
    ∀ (a₁ a₂ b₁ b₂ : List Char), '-' ∉ a₁ → '-' ∉ a₂ →
      a₁ ++ '-' :: b₁ = a₂ ++ '-' :: b₂ → a₁ = a₂ ∧ b₁ = b₂ := by
  intro a₁
  induction a₁ with
  | nil =>
    intro a₂ b₁ b₂ _ h₂ h
    cases a₂ with
    | nil => simpa using h
    | cons c cs =>
      simp only [List.nil_append, List.cons_append, List.cons.injEq] at h
      exact absurd (h.1 ▸ List.mem_cons_self c cs) h₂
  | cons c cs ih =>
    intro a₂ b₁ b₂ h₁ h₂ h
    cases a₂ with
    | nil =>
      simp only [List.cons_append, List.nil_append, List.cons.injEq] at h
      exact absurd (h.1 ▸ List.mem_cons_self c cs) h₁
    | cons d ds =>
      simp only [List.cons_append, List.cons.injEq] at h
      have hrest := ih ds b₁ b₂
        (fun hx => h₁ (List.mem_cons_of_mem c hx))
        (fun hx => h₂ (List.mem_cons_of_mem d hx)) h.2
      exact ⟨by rw [h.1, hrest.1], hrest.2⟩

/-- Structural consequence of a candidate id colliding with a session id for
the same room: the time bucket equals the session's millisecond timestamp
and the fan-out index renders to the session's random token. -/
theorem candidate_eq_session {room : String} {t : Nat} {s : String} {now i j : Nat}
    (h : candidateId room now i j = uniquePeerId room t s) :
    discoveryBucket now i = t ∧ natToString j = s := by
  have hd := congrArg String.data h
  simp only [candidateId, uniquePeerId, data_append, dash_data, List.append_assoc,
    List.singleton_append] at hd
  have h₁ :
      '-' :: ((natToString (discoveryBucket now i)).data ++ '-' :: (natToString j).data) =
      '-' :: ((natToString t).data ++ '-' :: s.data) :=
    list_append_cancel_left room.data hd
  have h₂ :
      (natToString (discoveryBucket now i)).data ++ '-' :: (natToString j).data =
      (natToString t).data ++ '-' :: s.data := by
    simpa using h₁
  have h₃ := dash_split _ _ _ _
    (dash_not_in_natToString (discoveryBucket now i)) (dash_not_in_natToString t) h₂
  exact ⟨natToString_inj (string_data_inj h₃.1), string_data_inj h₃.2⟩

/-- Every discovery bucket is a multiple of 10000 but a session id embeds the
exact millisecond timestamp, so a session created off a bucket boundary is
never dialed. -/
theorem candidate_ne_session_of_time {room : String} {t : Nat} {s : String}
    (now i j : Nat) (ht : t % 10000 ≠ 0) :
    candidateId room now i j ≠ uniquePeerId room t s := by
  intro h
  apply ht
  rw [← (candidate_eq_session h).1]
  exact Nat.mul_mod_left _ _

/-- Every discovery fan-out suffix is `0`, `1` or `2`, but a session id ends
in a random base-36 token, so a session whose token is none of these is
never dialed. -/
theorem candidate_ne_session_of_token {room : String} {t : Nat} {s : String}
    (now i j : Nat) (hj : j < 3) (h0 : s ≠ "0") (h1 : s ≠ "1") (h2 : s ≠ "2") :
    candidateId room now i j ≠ uniquePeerId room t s := by
  intro h
  have hs := (candidate_eq_session h).2
  interval_cases j
  · exact h0 (by rw [← hs]; decide)
  · exact h1 (by rw [← hs]; decide)
  · exact h2 (by rw [← hs]; decide)

/-- C8: `roomIdOf` is a pure deterministic function of the page address:
repeated applications agree, the result is the namespace prefix `wb-`
followed by the address stripped of non-alphanumerics and truncated to 30
characters, and the total length is at most 40. -/
theorem C8_roomId_deterministic_bounded (address : String) :
    roomIdOf address = roomIdOf address ∧
    roomIdOf address = "wb-" ++ String.mk ((address.data.filter isAlnumChar).take 30) ∧
    (roomIdOf address).length ≤ 40 := by
  refine ⟨rfl, rfl, ?_⟩
  have h1 : (roomIdOf address).length = ((address.data.filter isAlnumChar).take 30).length + 3 :=
    rfl
  have h2 : ((address.data.filter isAlnumChar).take 30).length ≤ 30 :=
    List.length_take_le 30 _
  omega

/-- C10: every discovery candidate has bucket timestamp divisible by 10000,
and for any session whose creation timestamp is not a multiple of 10000 or
whose random token is not one of `0`, `1`, `2`, no discovery candidate
generated at any clock time equals that session's identifier. -/
theorem C10_candidates_disjoint_from_session_ids
    (room : String) (t : Nat) (s : String) (now i j : Nat) (hj : j < 3)
    (h : t % 10000 ≠ 0 ∨ (s ≠ "0" ∧ s ≠ "1" ∧ s ≠ "2")) :
    discoveryBucket now i % 10000 = 0 ∧
    candidateId room now i j ≠ uniquePeerId room t s := by
  refine ⟨Nat.mul_mod_left _ _, ?_⟩
  rcases h with ht | ⟨h0, h1, h2⟩
  · exact candidate_ne_session_of_time now i j ht
  · exact candidate_ne_session_of_token now i j hj h0 h1 h2

/-- Witness for C10 at a concrete session (timestamp 123, token
`zzz9aa00x`) and a concrete candidate (clock 0, lookback step 0, index 0). -/
theorem C10_candidates_disjoint_from_session_ids_witness :
    (0 : Nat) < 3 ∧
    ((123 : Nat) % 10000 ≠ 0 ∨
      (("zzz9aa00x" : String) ≠ "0" ∧ ("zzz9aa00x" : String) ≠ "1" ∧
        ("zzz9aa00x" : String) ≠ "2")) ∧
    (discoveryBucket 0 0 % 10000 = 0 ∧
      candidateId "wb-x" 0 0 0 ≠ uniquePeerId "wb-x" 123 "zzz9aa00x") :=
  ⟨by decide, Or.inl (by decide),
    C10_candidates_disjoint_from_session_ids "wb-x" 123 "zzz9aa00x" 0 0 0
      (by decide) (Or.inl (by decide))⟩

/-- C1: in the rendezvous scenario, peer A registers under
`uniquePeerId "wb-xyz" 1699999996789 "k3j9q2x1m"` (exact milliseconds plus a
random 9-character token, as on block.tsx line 61), but the candidate set B
generates at any clock time contains only bucketed ids with fan-out suffix
0-2, so B never dials A's identifier and no link can be established by
discovery. -/
theorem C1_discovery_never_dials_session_id (now : Nat) :
    (candidateIds "wb-xyz" now).contains
      (uniquePeerId "wb-xyz" 1699999996789 "k3j9q2x1m") = false := by
  cases hc : (candidateIds "wb-xyz" now).contains
      (uniquePeerId "wb-xyz" 1699999996789 "k3j9q2x1m")
  · rfl
  · exfalso
    have hmem := List.mem_of_elem_eq_true hc
    simp only [candidateIds, List.mem_flatMap, List.mem_map, List.mem_range] at hmem
    rcases hmem with ⟨i, _, j, _, hcand⟩
    exact candidate_ne_session_of_time now i j (by decide) hcand

theorem mapGet_mapDelete {α : Type} (m : List (String × α)) (k : String) :
    mapGet (mapDelete m k) k = none := by
  induction m with
  | nil => rfl
  | cons p rest ih =>
    obtain ⟨k', v⟩ := p
    by_cases h : k' = k
    · subst h
      simpa [mapDelete, List.filter_cons] using ih
    · simp only [mapDelete, List.filter_cons] at ih ⊢
      simp only [mapGet, List.find?] at ih ⊢
      simp [h, ih]

/-- Delivering a user-join to a peer that has the sender registered always
emits exactly one reply (the peer's own user-join) and leaves the registry
and identity fields unchanged; there is no replied-before guard in the
handler (block.tsx lines 229-242). -/
theorem handle_userJoin_always_replies (st : PeerSt) (u : UserRec) (sender : String)
    (lid : Nat) (h : mapGet st.connections sender = some lid) :
    handleIncomingData st (.userJoin u) sender =
      ({ st with users := mapSet st.users sender u },
        [.send lid (.userJoin ⟨st.myUserId, st.selectedColor⟩)]) := by
  simp [handleIncomingData, h]

theorem exchangeStep_preserves (ex : Exchange) (h : ExchangeInv ex) :
    ExchangeInv (exchangeStep ex) ∧ (exchangeStep ex).delivered = ex.delivered + 1 := by
  obtain ⟨⟨la, ha⟩, ⟨lb, hb⟩, hq⟩ := h
  rcases hq with ⟨u, hB, hA⟩ | ⟨u, hA, hB⟩
  · have hred : exchangeStep ex =
        { ex with
          b := { ex.b with users := mapSet ex.b.users ex.aId u }
          toB := []
          toA := ex.toA ++ [WireMsg.userJoin ⟨ex.b.myUserId, ex.b.selectedColor⟩]
          delivered := ex.delivered + 1 } := by
      simp [exchangeStep, hB, handleIncomingData, hb, sentMsgs]
    rw [hred]
    exact ⟨⟨⟨la, ha⟩, ⟨lb, hb⟩,
      Or.inr ⟨⟨ex.b.myUserId, ex.b.selectedColor⟩, by simp [hA], rfl⟩⟩, rfl⟩
  · have hred : exchangeStep ex =
        { ex with
          a := { ex.a with users := mapSet ex.a.users ex.bId u }
          toA := []
          toB := [WireMsg.userJoin ⟨ex.a.myUserId, ex.a.selectedColor⟩]
          delivered := ex.delivered + 1 } := by
      simp [exchangeStep, hB, hA, handleIncomingData, ha, sentMsgs]
    rw [hred]
    exact ⟨⟨⟨la, ha⟩, ⟨lb, hb⟩,
      Or.inl ⟨⟨ex.a.myUserId, ex.a.selectedColor⟩, rfl, rfl⟩⟩, rfl⟩

theorem exchange_invariant_iterated (n : Nat) :
    ExchangeInv (exchangeStep^[n] exchangeInit) ∧
    (exchangeStep^[n] exchangeInit).delivered = n := by
  induction n with
  | zero =>
    simp only [Function.iterate_zero, id_eq]
    exact ⟨⟨⟨1, by decide⟩, ⟨2, by decide⟩,
      Or.inl ⟨⟨"wb-x-1-aa", "#FF6B6B"⟩, rfl, rfl⟩⟩, rfl⟩
  | succ k ih =>
    rw [Function.iterate_succ_apply']
    have h := exchangeStep_preserves _ ih.1
    exact ⟨h.1, by rw [h.2, ih.2]⟩

/-- C3 (code evaluation at the failing configuration): the user-join handler
has no replied-on-this-link guard, so between two linked peers every
delivered user-join triggers another reply.  Starting from one in-flight
user-join, after `n` event-loop deliveries exactly `n` messages have been
delivered and one user-join is still in flight: the exchange never
quiesces. -/
theorem C3_user_join_exchange_never_terminates (n : Nat) :
    (exchangeStep^[n] exchangeInit).delivered = n ∧
    ((exchangeStep^[n] exchangeInit).toB ++ (exchangeStep^[n] exchangeInit).toA).length = 1 := by
  have h := exchange_invariant_iterated n
  refine ⟨h.2, ?_⟩
  rcases h.1.2.2 with ⟨u, hB, hA⟩ | ⟨u, hA, hB⟩ <;> simp [hB, hA]

set_option maxRecDepth 8192 in
/-- C2 (code evaluation at the failing input): one discovery tick at clock
20000 ms in room `wb-x` on a fresh node dials the bucket-10000 candidate
three times (lookback steps 1, 2 and 3 fall in the same 10-second bucket
and pending links are never recorded in the `connections` map consulted by
the dial guard), creating three simultaneous pending links to the same
remote identifier instead of coalescing them. -/
theorem C2_duplicate_pending_links_for_same_id :
    ((discoveryTick nodeInit "wb-x" 20000).links.filter
      (fun l => l.remote == candidateId "wb-x" 20000 1 0 &&
        l.state == LinkState.pending)).length = 3 := by
  decide

/-- C4: the inbound dispatch of a `clear` message performs exactly one
local clear and the dispatch of a `drawing` message exactly one local
render; neither produces a send or a broadcast effect. -/
theorem C4_clear_and_drawing_echo_suppression (st : PeerSt) (sender : String)
    (d : DrawingData) :
    (handleIncomingData st .clear sender).2 = [.clearCanvas] ∧
    (handleIncomingData st (.drawing d) sender).2 = [.drawOnCanvas d] ∧
    ((handleIncomingData st .clear sender).2.filter isBroadcastEff) = [] ∧
    ((handleIncomingData st (.drawing d) sender).2.filter isBroadcastEff) = [] :=
  ⟨rfl, rfl, rfl, rfl⟩

/-- C5: when the close handler of a fully set up link runs, the registry
entry, the participant record and the cursor entry of the link's remote id
are all removed. -/
theorem C5_close_removes_presence (st : NodeSt) (lid : Nat) (l : Link)
    (hfind : findLink st lid = some l) (hphase : l.phase = .full) :
    mapGet ((step st (.closeEvt lid)).1.ps.connections) l.remote = none ∧
    mapGet ((step st (.closeEvt lid)).1.ps.users) l.remote = none ∧
    mapGet ((step st (.closeEvt lid)).1.ps.cursors) l.remote = none := by
  simp [step, hfind, hphase, mapGet_mapDelete]

/-- Witness for C5 on a node with one open link to `r` and presence and
cursor entries for `r`. -/
theorem C5_close_removes_presence_witness :
    findLink nodeC5 0 = some ⟨0, "r", .opn, .full⟩ ∧
    (Link.mk 0 "r" .opn .full).phase = .full ∧
    (mapGet ((step nodeC5 (.closeEvt 0)).1.ps.connections) "r" = none ∧
      mapGet ((step nodeC5 (.closeEvt 0)).1.ps.users) "r" = none ∧
      mapGet ((step nodeC5 (.closeEvt 0)).1.ps.cursors) "r" = none) :=
  ⟨by decide, rfl, C5_close_removes_presence nodeC5 0 ⟨0, "r", .opn, .full⟩ (by decide) rfl⟩

/-- C6: `broadcastData` delivers the message to exactly the open
connections that do not fail and logs exactly the open connections that do
fail, in iteration order; connections that are not open are skipped and a
failure on one link never removes later links from the delivery.  The
function is total: no error reaches the caller. -/
theorem C6_broadcast_partial_failure_isolation (conns : List BConn)
    (fails : String → Bool) (msg : WireMsg) :
    (broadcastData conns fails msg).1 =
      (conns.filter fun c => c.opn && !(fails c.peer)).map (fun c => (c.peer, msg)) ∧
    (broadcastData conns fails msg).2 =
      (conns.filter fun c => c.opn && fails c.peer).map (fun c => c.peer) := by
  induction conns with
  | nil => exact ⟨rfl, rfl⟩
  | cons c rest ih =>
    by_cases ho : c.opn <;> by_cases hf : fails c.peer <;>
      simp [broadcastData, List.filter_cons, ho, hf, ih.1, ih.2]

set_option maxRecDepth 8192 in
/-- C7 (code evaluation at the failing input): for an outbound link the
open event fires while only the outer dial callback is subscribed, so
nothing is sent and the registry stays empty; for an inbound link the open
event sends `user-join` (with the local id and color) then
`request-canvas-state`, in that order, and records the link. -/
theorem C7_open_postcondition_fails_for_outbound :
    (step (step nodeInit (.discoveryTickEvt "wb-x" 20000)).1 (.transportOpen 0)).2 = [] ∧
    (step (step nodeInit (.discoveryTickEvt "wb-x" 20000)).1 (.transportOpen 0)).1.ps.connections = [] ∧
    (step (step nodeInit (.inboundConn "wb-x-10000-0")).1 (.transportOpen 0)).2 =
      [.send 0 (.userJoin ⟨"wb-x-900-me", "#FF6B6B"⟩), .send 0 .requestCanvasState] ∧
    (step (step nodeInit (.inboundConn "wb-x-10000-0")).1 (.transportOpen 0)).1.ps.connections =
      [("wb-x-10000-0", 0)] := by
  decide

/-- C9: a `request-canvas-state` from a registered sender is answered on
that sender's link with a `canvas-state` message whose payload is absent,
and an incoming `canvas-state` message (any payload, in particular an
absent one) is dispatched without effect and without failure. -/
theorem C9_canvas_state_stub (st : PeerSt) (sender : String) (lid : Nat)
    (h : mapGet st.connections sender = some lid) :
    handleIncomingData st .requestCanvasState sender = (st, [.send lid (.canvasState none)]) ∧
    ∀ img, handleIncomingData st (.canvasState img) sender = (st, []) := by
  constructor
  · simp [handleIncomingData, h]
  · intro img; rfl

/-- Witness for C9 on a registry mapping sender `s` to link 5. -/
theorem C9_canvas_state_stub_witness :
    mapGet psC9.connections "s" = some 5 ∧
    handleIncomingData psC9 .requestCanvasState "s" = (psC9, [.send 5 (.canvasState none)]) ∧
    handleIncomingData psC9 (.canvasState none) "s" = (psC9, []) :=
  ⟨by decide, (C9_canvas_state_stub psC9 "s" 5 (by decide)).1,
    (C9_canvas_state_stub psC9 "s" 5 (by decide)).2 none⟩

end Whiteboard
